import Mathlib

/-!
Verification development for the fretboard-training engine (`script.js`).

The definitions below are a shallow embedding of the engine's pure logic:
music-theory functions, the fret-spacing layout computation, and the
game-mode state machine (Single Note, Find All, Triads) with its timer
flags.  Rendering, audio and DOM access are I/O and are omitted; the
`setTimeout`-delayed prompt advances of the source are modelled as
explicit state-transition functions, and every use of `Math.random()` is
replaced by an injected choice parameter (a natural-number pick or the
chosen note/triad itself), exactly as the source consumes it.

Source constants (`script.js`):
  NOTES (line 203), TRIAD_TYPES (206), STRING_TUNING (214), NUM_FRETS (223).
-/

namespace GuitarMemorizer

/-- The 12 pitch-class names, `script.js` line 203. -/
def NOTES : List String :=
  ["C", "C#", "D"] ++ ["D#", "E", "F"] ++ ["F#", "G", "G#"] ++ ["A", "A#"] ++ ["B"]

/-- Open-string notes of the six strings, high E to low E
(`STRING_TUNING`, `script.js` lines 214-221; only the `note` field is
game-logic relevant — `baseFreq` feeds the audio wrapper). -/
def STRING_TUNING : List String :=
  ["E", "B", "G", "D", "A", "E"]

/-- `NUM_FRETS`, `script.js` line 223: frets 0-22, fret 0 excluded from play. -/
def NUM_FRETS : Nat := 23

/-- A fretboard position, as pushed by `getAllPositions`
(`{ string: stringIndex, fret: fretIndex }`). -/
structure Position where
  string : Nat
  fret : Nat
deriving DecidableEq, Repr

/-- `getNoteAt` (`script.js` lines 270-275):
`NOTES[(NOTES.indexOf(STRING_TUNING[stringIndex].note) + fretIndex) % 12]`. -/
def getNoteAt (stringIndex fretIndex : Nat) : String :=
  let openNoteIndex := NOTES.indexOf (STRING_TUNING.getD stringIndex "")
  NOTES.getD ((openNoteIndex + fretIndex) % 12) ""

/-- `isFretDisabled` (`script.js` lines 303-305):
`state.disabledFrets.includes(fretIndex)`; the disabled-fret list is
passed explicitly here instead of being read from the global `state`. -/
def isFretDisabled (disabledFrets : List Nat) (fretIndex : Nat) : Bool :=
  disabledFrets.contains fretIndex

/-- `getAllPositions` (`script.js` lines 282-297): for each string
`0..5`, for each fret `1..NUM_FRETS-1`, skip disabled frets, keep
positions whose note equals `note`, in loop order (string-major,
fret-minor). -/
def getAllPositions (disabledFrets : List Nat) (note : String) : List Position :=
  (List.range STRING_TUNING.length).flatMap fun stringIndex =>
    ((List.range' 1 (NUM_FRETS - 1)).filter fun fretIndex =>
        !isFretDisabled disabledFrets fretIndex && getNoteAt stringIndex fretIndex == note).map
      fun fretIndex => Position.mk stringIndex fretIndex

/-- A triad as built by `getRandomTriad` (`script.js` lines 307-332):
root pitch class, type name, and the three derived note names. -/
structure Triad where
  root : String
  typeName : String
  notes : List String
deriving DecidableEq, Repr

/-- Note derivation of `getRandomTriad` (`script.js` lines 324-326):
`intervals.map(i => NOTES[(rootIndex + i) % 12])`. -/
def triadNotesOf (rootNote : String) (intervals : List Nat) : List String :=
  intervals.map fun interval => NOTES.getD ((NOTES.indexOf rootNote + interval) % 12) ""

/-- `selectRandomRootNotePosition` (`script.js` lines 334-345).
`showTriadRootNote` and `disabledFrets` stand for the fields of the
global `state`; `rootNote` is `state.targetTriad?.root` (an optional
value); `pick` injects the `Math.floor(Math.random() * length)` index. -/
def selectRandomRootNotePosition (showTriadRootNote : Bool) (disabledFrets : List Nat)
    (rootNote : Option String) (pick : Nat) : Option Position :=
  if !showTriadRootNote then none
  else
    match rootNote with
    | none => none
    | some root =>
      let rootPositions := getAllPositions disabledFrets root
      if rootPositions.length > 0 then
        some (rootPositions.getD (pick % rootPositions.length) (Position.mk 0 0))
      else none

/-- The 12th root of 2, `const r = Math.pow(2, 1/12)`
(`script.js` lines 2621, 2649); the source's IEEE doubles are modelled
by exact real arithmetic. -/
noncomputable def fretRatio : ℝ := (2 : ℝ) ^ ((1 : ℝ) / 12)

/-- Normalized position of fret `n` along the scale,
`X_n = 1 - 1/r^n` (`script.js` lines 2630, 2657). -/
noncomputable def fretPosition (n : Nat) : ℝ := 1 - (fretRatio ^ n)⁻¹

/-- `calculateFretSpacingPercentages` (`script.js` lines 2620-2642):
the widths of the 22 fret spaces (`fret = 1 .. NUM_FRETS-1`, each width
being `X_fret - X_(fret-1)`), normalized so that they sum to 100. -/
noncomputable def calculateFretSpacingPercentages : List ℝ :=
  let percentages := (List.range (NUM_FRETS - 1)).map fun i =>
    fretPosition (i + 1) - fretPosition i
  let total := percentages.sum
  percentages.map fun p => p / total * 100

/-- `calculateFretCumulativePositions` (`script.js` lines 2648-2673):
the left edge of each of the 22 fret spaces (`fretPosition 0 ..
fretPosition 21`), normalized to 0-100 by the full span
`fretPosition (NUM_FRETS - 1)` when that span is positive. -/
noncomputable def calculateFretCumulativePositions : List ℝ :=
  let positions := (List.range (NUM_FRETS - 1)).map fun i => fretPosition i
  let totalWidth := fretPosition (NUM_FRETS - 1)
  if 0 < totalWidth then positions.map fun p => p / totalWidth * 100 else positions

/-- The screens relevant to game logic (`state.currentScreen`). -/
inductive GameScreen where
  | menu
  | singleNote
  | findAll
  | triads
deriving DecidableEq, Repr

/-- The game-logic fields of the global `state` object (`script.js`
lines 55-90) together with the timer bookkeeping: `timerRunning` models
whether the `setInterval` handle `gameTimer` is live. -/
structure GameState where
  currentScreen : GameScreen
  score : Nat
  errors : Nat
  targetNote : String
  allPositions : List Position
  foundPositions : List Position
  targetTriad : Triad
  clickedTriadNotes : List String
  clickedTriadPositions : List Position
  triadRootNotePosition : Option Position
  showTriadRootNote : Bool
  disabledFrets : List Nat
  enableTimeLimit : Bool
  timeLimit : Nat
  timeRemaining : Nat
  timerStarted : Bool
  timerRunning : Bool
  isFirstQuestion : Bool
deriving DecidableEq, Repr

/-- `clearTimer` (`script.js` lines 2909-2921): stop the interval, then
reset `timeRemaining` to the configured limit when the time limit is
active, else to 0. -/
def clearTimer (s : GameState) : GameState :=
  let s := { s with timerRunning := false }
  if s.enableTimeLimit && s.timeLimit != 0 then { s with timeRemaining := s.timeLimit }
  else { s with timeRemaining := 0 }

/-- `startTimer` (`script.js` lines 2923-2954): `clearTimer()`, bail out
when the limit is disabled or zero, else reset `timeRemaining` and start
the countdown interval. -/
def startTimer (s : GameState) : GameState :=
  let s := clearTimer s
  if !s.enableTimeLimit || s.timeLimit == 0 then s
  else { s with timeRemaining := s.timeLimit, timerRunning := true }

/-- `startTimerOnFirstClick` (`script.js` lines 2956-2962). -/
def startTimerOnFirstClick (s : GameState) : GameState :=
  if !s.timerStarted && s.enableTimeLimit && s.timeLimit != 0 then
    startTimer { s with timerStarted := true }
  else s

/-- Classification of what a click did, read off the source's branch
structure (feedback messages / early returns). -/
inductive ClickOutcome where
  | rejectedDisabled
  | alreadyFound
  | correct (completed : Bool)
  | wrong
  | ignored
deriving DecidableEq, Repr

/-- Body of `handleSingleNoteClick` after its `startTimerOnFirstClick()`
call (`script.js` lines 3361-3444): on a correct note, score + 1, clear
the timer and drop the first-question grace; on a mismatch, errors + 1.
The `setTimeout` body only draws a new target and re-starts the timer
and is not consumed by the theorems below. -/
def singleNoteClickCore (s : GameState) (stringIndex fretIndex : Nat) :
    GameState × ClickOutcome :=
  let note := getNoteAt stringIndex fretIndex
  if note == s.targetNote then
    let s := { s with score := s.score + 1 }
    let s := clearTimer s
    let s := { s with timerStarted := false, isFirstQuestion := false }
    (s, .correct true)
  else
    ({ s with errors := s.errors + 1 }, .wrong)

/-- `handleSingleNoteClick` (`script.js` lines 3361-3444), the 3D-view
handler reached from `onFretClick`; the zone's `userData.note` is
`getNoteAt(stringIndex, fretIndex)` by construction of the zones. -/
def handleSingleNoteClick (s : GameState) (stringIndex fretIndex : Nat) :
    GameState × ClickOutcome :=
  singleNoteClickCore (startTimerOnFirstClick s) stringIndex fretIndex

/-- `handleSingleNoteDOMClick` (`script.js` lines 3968-4019), the
2D-view handler: note that `startTimerOnFirstClick()` runs before the
disabled-fret check. -/
def handleSingleNoteDOMClick (s : GameState) (stringIndex fretIndex : Nat) :
    GameState × ClickOutcome :=
  let s := startTimerOnFirstClick s
  if isFretDisabled s.disabledFrets fretIndex then (s, .rejectedDisabled)
  else singleNoteClickCore s stringIndex fretIndex

/-- Body of `handleFindAllClick` after its `startTimerOnFirstClick()`
call (`script.js` lines 3445-3524): ignore already-found positions; on
the target note, append the position and, when none remain, award the
+10 completion bonus and clear the timer; on a mismatch, errors + 1. -/
def findAllClickCore (s : GameState) (stringIndex fretIndex : Nat) :
    GameState × ClickOutcome :=
  if s.foundPositions.any (fun pos => pos.string == stringIndex && pos.fret == fretIndex) then
    (s, .alreadyFound)
  else
    let note := getNoteAt stringIndex fretIndex
    if note == s.targetNote then
      let s := { s with foundPositions := s.foundPositions ++ [Position.mk stringIndex fretIndex] }
      let remaining := s.allPositions.length - s.foundPositions.length
      if remaining > 0 then (s, .correct false)
      else
        let s := { s with score := s.score + 10 }
        let s := clearTimer s
        let s := { s with timerStarted := false, isFirstQuestion := false }
        (s, .correct true)
    else
      ({ s with errors := s.errors + 1 }, .wrong)

/-- `handleFindAllClick` (`script.js` lines 3445-3524), the 3D-view
handler reached from `onFretClick`. -/
def handleFindAllClick (s : GameState) (stringIndex fretIndex : Nat) :
    GameState × ClickOutcome :=
  findAllClickCore (startTimerOnFirstClick s) stringIndex fretIndex

/-- `handleFindAllDOMClick` (`script.js` lines 4021-4085), the 2D-view
handler: `startTimerOnFirstClick()` runs before the disabled-fret
check. -/
def handleFindAllDOMClick (s : GameState) (stringIndex fretIndex : Nat) :
    GameState × ClickOutcome :=
  let s := startTimerOnFirstClick s
  if isFretDisabled s.disabledFrets fretIndex then (s, .rejectedDisabled)
  else findAllClickCore s stringIndex fretIndex

/-- Body of `handleTriadClick` after its `startTimerOnFirstClick()` call
(`script.js` lines 3550-3644): a note of the triad that is not yet in
`clickedTriadNotes` is appended (one push into each of
`clickedTriadNotes` and `clickedTriadPositions`), the root-hint marker
is cleared when its exact position was clicked, and the third distinct
note scores +1 and clears the timer; a repeated note is informational
only; a note outside the triad is an error. -/
def triadClickCore (s : GameState) (stringIndex fretIndex : Nat) :
    GameState × ClickOutcome :=
  let note := getNoteAt stringIndex fretIndex
  let triad := s.targetTriad
  if triad.notes.contains note then
    if !s.clickedTriadNotes.contains note then
      let s := { s with clickedTriadNotes := s.clickedTriadNotes ++ [note],
                        clickedTriadPositions := s.clickedTriadPositions ++ [Position.mk stringIndex fretIndex] }
      let s :=
        if (match s.triadRootNotePosition with
            | some rp => rp.string == stringIndex && rp.fret == fretIndex
            | none => false) then
          { s with triadRootNotePosition := none }
        else s
      if s.clickedTriadNotes.length == 3 then
        let s := { s with score := s.score + 1 }
        let s := clearTimer s
        let s := { s with timerStarted := false, isFirstQuestion := false }
        (s, .correct true)
      else (s, .correct false)
    else (s, .alreadyFound)
  else
    ({ s with errors := s.errors + 1 }, .wrong)

/-- `handleTriadClick` (`script.js` lines 3550-3644), the 3D-view
handler reached from `onFretClick`. -/
def handleTriadClick (s : GameState) (stringIndex fretIndex : Nat) :
    GameState × ClickOutcome :=
  triadClickCore (startTimerOnFirstClick s) stringIndex fretIndex

/-- `handleTriadDOMClick` (`script.js` lines 4087-4177), the 2D-view
handler.  Written out in full because it differs from `triadClickCore`:
after the initial push into `clickedTriadPositions` (line 4110), BOTH
branches of the `length === 3` check push the same position a second
time (lines 4121 and 4166), so each correct new-note click appends two
copies of the clicked position. -/
def handleTriadDOMClick (s : GameState) (stringIndex fretIndex : Nat) :
    GameState × ClickOutcome :=
  let s := startTimerOnFirstClick s
  if isFretDisabled s.disabledFrets fretIndex then (s, .rejectedDisabled)
  else
    let note := getNoteAt stringIndex fretIndex
    let triad := s.targetTriad
    if triad.notes.contains note then
      if !s.clickedTriadNotes.contains note then
        let s := { s with clickedTriadNotes := s.clickedTriadNotes ++ [note],
                          clickedTriadPositions := s.clickedTriadPositions ++ [Position.mk stringIndex fretIndex] }
        let s :=
          if (match s.triadRootNotePosition with
              | some rp => rp.string == stringIndex && rp.fret == fretIndex
              | none => false) then
            { s with triadRootNotePosition := none }
          else s
        if s.clickedTriadNotes.length == 3 then
          let s := { s with clickedTriadPositions := s.clickedTriadPositions ++ [Position.mk stringIndex fretIndex] }
          let s := { s with score := s.score + 1 }
          let s := clearTimer s
          let s := { s with timerStarted := false, isFirstQuestion := false }
          (s, .correct true)
        else
          let s := { s with clickedTriadPositions := s.clickedTriadPositions ++ [Position.mk stringIndex fretIndex] }
          (s, .correct false)
      else (s, .alreadyFound)
    else
      ({ s with errors := s.errors + 1 }, .wrong)

/-- `onFretClick` (`script.js` lines 2507-2537), the single 3D-view
click entry point: the disabled-fret check precedes every mode handler,
so a disabled click never reaches any game-state mutation. -/
def onFretClick (s : GameState) (stringIndex fretIndex : Nat) : GameState × ClickOutcome :=
  if isFretDisabled s.disabledFrets fretIndex then (s, .rejectedDisabled)
  else
    match s.currentScreen with
    | .singleNote => handleSingleNoteClick s stringIndex fretIndex
    | .findAll => handleFindAllClick s stringIndex fretIndex
    | .triads => handleTriadClick s stringIndex fretIndex
    | _ => (s, .ignored)

/-- `startFindAllGame` (`script.js` lines 3345-3355); `newNote` injects
the `getRandomNote()` draw. -/
def startFindAllGame (s : GameState) (newNote : String) : GameState :=
  { s with currentScreen := .findAll, targetNote := newNote,
           allPositions := getAllPositions s.disabledFrets newNote,
           foundPositions := [], score := 0, errors := 0,
           isFirstQuestion := true }

/-- `startTriadsGameFromSettings` (`script.js` lines 3688-3730, state
part); `newTriad` injects the `getRandomTriad()` draw and `rootPick`
the random root-position index.  When the root hint is enabled and a
root position exists, the root pitch class and that position are
pre-seeded into the clicked sets. -/
def startTriadsGameFromSettings (s : GameState) (newTriad : Triad) (rootPick : Nat) :
    GameState :=
  let s := { s with currentScreen := .triads, targetTriad := newTriad,
                    clickedTriadNotes := [], clickedTriadPositions := [],
                    score := 0, errors := 0, isFirstQuestion := true }
  let s := { s with triadRootNotePosition :=
               (selectRandomRootNotePosition s.showTriadRootNote s.disabledFrets
                 (some newTriad.root) rootPick) }
  if s.showTriadRootNote && s.triadRootNotePosition.isSome then
    { s with clickedTriadNotes := s.clickedTriadNotes ++ [s.targetTriad.root],
             clickedTriadPositions :=
               s.clickedTriadPositions ++ [s.triadRootNotePosition.getD (Position.mk 0 0)] }
  else s

/-- The Find All `setTimeout` advance after a completed prompt
(`script.js` lines 3496-3520 / 4063-4079): new target, recomputed
`allPositions`, `foundPositions` reset, then auto-start of the timer
unless this is still the first question. -/
def findAllAdvance (s : GameState) (newNote : String) : GameState :=
  let s := { s with targetNote := newNote,
                    allPositions := getAllPositions s.disabledFrets newNote,
                    foundPositions := [] }
  if s.enableTimeLimit && s.timeLimit != 0 && !s.isFirstQuestion then startTimer s else s

/-- `handleTimeOut` (`script.js` lines 2981-3070) including its
`setTimeout` body: errors + 1, drop the first-question grace, then a
fresh prompt for the active mode and an unconditional timer restart
whenever the time limit is active.  `newNote`, `newTriad` and
`rootPick` inject the random draws of the delayed callback. -/
def handleTimeOut (s : GameState) (newNote : String) (newTriad : Triad) (rootPick : Nat) :
    GameState :=
  let s := { s with errors := s.errors + 1, timerStarted := false, isFirstQuestion := false }
  match s.currentScreen with
  | .singleNote =>
    let s := { s with targetNote := newNote }
    if s.enableTimeLimit && s.timeLimit != 0 then startTimer s else s
  | .findAll =>
    let s := { s with targetNote := newNote,
                      allPositions := getAllPositions s.disabledFrets newNote,
                      foundPositions := [] }
    if s.enableTimeLimit && s.timeLimit != 0 then startTimer s else s
  | .triads =>
    let s := { s with targetTriad := newTriad, clickedTriadNotes := [],
                      clickedTriadPositions := [] }
    let s := { s with triadRootNotePosition :=
                 (selectRandomRootNotePosition s.showTriadRootNote s.disabledFrets
                   (some newTriad.root) rootPick) }
    let s :=
      if s.showTriadRootNote && s.triadRootNotePosition.isSome then
        { s with clickedTriadNotes := s.clickedTriadNotes ++ [s.targetTriad.root],
                 clickedTriadPositions :=
                   s.clickedTriadPositions ++ [s.triadRootNotePosition.getD (Position.mk 0 0)] }
      else s
    if s.enableTimeLimit && s.timeLimit != 0 then startTimer s else s
  | _ => s

/-- String-major, fret-minor ascending order on positions — the
enumeration order of `getAllPositions`. -/
def posLt (a b : Position) : Prop :=
  a.string < b.string ∨ (a.string = b.string ∧ a.fret < b.fret)

/-- Fold a list of Find All clicks (3D path, `handleFindAllClick`)
over the state, counting how many clicks completed the prompt
(outcome `correct true`, i.e. the `+10` branch). -/
def findAllClickTrace : GameState → List Position → GameState × Nat
  | s, [] => (s, 0)
  | s, p :: ps =>
    let r := handleFindAllClick s p.string p.fret
    let rest := findAllClickTrace r.1 ps
    (rest.1, (if r.2 = .correct true then 1 else 0) + rest.2)

/-- The C major triad as produced by `getRandomTriad` for root C:
`triadNotesOf "C" [0, 4, 7] = ["C", "E", "G"]`. -/
def cMajorTriad : Triad := ⟨"C", "Major", ["C", "E", "G"]⟩

/-- A neutral state fixture used to build the concrete states of the
witness and counterexample theorems. -/
def baseState : GameState where
  currentScreen := .menu
  score := 0
  errors := 0
  targetNote := "C"
  allPositions := []
  foundPositions := []
  targetTriad := cMajorTriad
  clickedTriadNotes := []
  clickedTriadPositions := []
  triadRootNotePosition := none
  showTriadRootNote := false
  disabledFrets := []
  enableTimeLimit := false
  timeLimit := 0
  timeRemaining := 0
  timerStarted := false
  timerRunning := false
  isFirstQuestion := true

/-- The Find All well-formedness invariant of the claim set:
`allPositions` is the current enumeration for the target note and
`foundPositions` only holds members of it. -/
def FindAllInv (s : GameState) : Prop :=
  s.allPositions = getAllPositions s.disabledFrets s.targetNote ∧
  ∀ p ∈ s.foundPositions, p ∈ s.allPositions

instance (s : GameState) : Decidable (FindAllInv s) := by
  unfold FindAllInv
  infer_instance

/-!  Field-preservation lemmas: the three timer routines touch only the
timer bookkeeping (`timeRemaining`, `timerRunning`, and for
`startTimerOnFirstClick` also `timerStarted`); every other field of the
state is untouched. -/

@[simp]
theorem clearTimer_currentScreen (s : GameState) : (clearTimer s).currentScreen = s.currentScreen := by
  unfold clearTimer
  dsimp only
  repeat' split
  all_goals rfl

@[simp]
theorem clearTimer_score (s : GameState) : (clearTimer s).score = s.score := by
  unfold clearTimer
  dsimp only
  repeat' split
  all_goals rfl

@[simp]
theorem clearTimer_errors (s : GameState) : (clearTimer s).errors = s.errors := by
  unfold clearTimer
  dsimp only
  repeat' split
  all_goals rfl

@[simp]
theorem clearTimer_targetNote (s : GameState) : (clearTimer s).targetNote = s.targetNote := by
  unfold clearTimer
  dsimp only
  repeat' split
  all_goals rfl

@[simp]
theorem clearTimer_allPositions (s : GameState) : (clearTimer s).allPositions = s.allPositions := by
  unfold clearTimer
  dsimp only
  repeat' split
  all_goals rfl

@[simp]
theorem clearTimer_foundPositions (s : GameState) : (clearTimer s).foundPositions = s.foundPositions := by
  unfold clearTimer
  dsimp only
  repeat' split
  all_goals rfl

@[simp]
theorem clearTimer_targetTriad (s : GameState) : (clearTimer s).targetTriad = s.targetTriad := by
  unfold clearTimer
  dsimp only
  repeat' split
  all_goals rfl

@[simp]
theorem clearTimer_clickedTriadNotes (s : GameState) : (clearTimer s).clickedTriadNotes = s.clickedTriadNotes := by
  unfold clearTimer
  dsimp only
  repeat' split
  all_goals rfl

@[simp]
theorem clearTimer_clickedTriadPositions (s : GameState) : (clearTimer s).clickedTriadPositions = s.clickedTriadPositions := by
  unfold clearTimer
  dsimp only
  repeat' split
  all_goals rfl

@[simp]
theorem clearTimer_triadRootNotePosition (s : GameState) : (clearTimer s).triadRootNotePosition = s.triadRootNotePosition := by
  unfold clearTimer
  dsimp only
  repeat' split
  all_goals rfl

@[simp]
theorem clearTimer_showTriadRootNote (s : GameState) : (clearTimer s).showTriadRootNote = s.showTriadRootNote := by
  unfold clearTimer
  dsimp only
  repeat' split
  all_goals rfl

@[simp]
theorem clearTimer_disabledFrets (s : GameState) : (clearTimer s).disabledFrets = s.disabledFrets := by
  unfold clearTimer
  dsimp only
  repeat' split
  all_goals rfl

@[simp]
theorem clearTimer_enableTimeLimit (s : GameState) : (clearTimer s).enableTimeLimit = s.enableTimeLimit := by
  unfold clearTimer
  dsimp only
  repeat' split
  all_goals rfl

@[simp]
theorem clearTimer_timeLimit (s : GameState) : (clearTimer s).timeLimit = s.timeLimit := by
  unfold clearTimer
  dsimp only
  repeat' split
  all_goals rfl

@[simp]
theorem clearTimer_isFirstQuestion (s : GameState) : (clearTimer s).isFirstQuestion = s.isFirstQuestion := by
  unfold clearTimer
  dsimp only
  repeat' split
  all_goals rfl

@[simp]
theorem clearTimer_timerStarted (s : GameState) : (clearTimer s).timerStarted = s.timerStarted := by
  unfold clearTimer
  dsimp only
  repeat' split
  all_goals rfl

@[simp]
theorem startTimer_currentScreen (s : GameState) : (startTimer s).currentScreen = s.currentScreen := by
  unfold startTimer clearTimer
  dsimp only
  repeat' split
  all_goals rfl

@[simp]
theorem startTimer_score (s : GameState) : (startTimer s).score = s.score := by
  unfold startTimer clearTimer
  dsimp only
  repeat' split
  all_goals rfl

@[simp]
theorem startTimer_errors (s : GameState) : (startTimer s).errors = s.errors := by
  unfold startTimer clearTimer
  dsimp only
  repeat' split
  all_goals rfl

@[simp]
theorem startTimer_targetNote (s : GameState) : (startTimer s).targetNote = s.targetNote := by
  unfold startTimer clearTimer
  dsimp only
  repeat' split
  all_goals rfl

@[simp]
theorem startTimer_allPositions (s : GameState) : (startTimer s).allPositions = s.allPositions := by
  unfold startTimer clearTimer
  dsimp only
  repeat' split
  all_goals rfl

@[simp]
theorem startTimer_foundPositions (s : GameState) : (startTimer s).foundPositions = s.foundPositions := by
  unfold startTimer clearTimer
  dsimp only
  repeat' split
  all_goals rfl

@[simp]
theorem startTimer_targetTriad (s : GameState) : (startTimer s).targetTriad = s.targetTriad := by
  unfold startTimer clearTimer
  dsimp only
  repeat' split
  all_goals rfl

@[simp]
theorem startTimer_clickedTriadNotes (s : GameState) : (startTimer s).clickedTriadNotes = s.clickedTriadNotes := by
  unfold startTimer clearTimer
  dsimp only
  repeat' split
  all_goals rfl

@[simp]
theorem startTimer_clickedTriadPositions (s : GameState) : (startTimer s).clickedTriadPositions = s.clickedTriadPositions := by
  unfold startTimer clearTimer
  dsimp only
  repeat' split
  all_goals rfl

@[simp]
theorem startTimer_triadRootNotePosition (s : GameState) : (startTimer s).triadRootNotePosition = s.triadRootNotePosition := by
  unfold startTimer clearTimer
  dsimp only
  repeat' split
  all_goals rfl

@[simp]
theorem startTimer_showTriadRootNote (s : GameState) : (startTimer s).showTriadRootNote = s.showTriadRootNote := by
  unfold startTimer clearTimer
  dsimp only
  repeat' split
  all_goals rfl

@[simp]
theorem startTimer_disabledFrets (s : GameState) : (startTimer s).disabledFrets = s.disabledFrets := by
  unfold startTimer clearTimer
  dsimp only
  repeat' split
  all_goals rfl

@[simp]
theorem startTimer_enableTimeLimit (s : GameState) : (startTimer s).enableTimeLimit = s.enableTimeLimit := by
  unfold startTimer clearTimer
  dsimp only
  repeat' split
  all_goals rfl

@[simp]
theorem startTimer_timeLimit (s : GameState) : (startTimer s).timeLimit = s.timeLimit := by
  unfold startTimer clearTimer
  dsimp only
  repeat' split
  all_goals rfl

@[simp]
theorem startTimer_isFirstQuestion (s : GameState) : (startTimer s).isFirstQuestion = s.isFirstQuestion := by
  unfold startTimer clearTimer
  dsimp only
  repeat' split
  all_goals rfl

@[simp]
theorem startTimer_timerStarted (s : GameState) : (startTimer s).timerStarted = s.timerStarted := by
  unfold startTimer clearTimer
  dsimp only
  repeat' split
  all_goals rfl

@[simp]
theorem startTimerOnFirstClick_currentScreen (s : GameState) : (startTimerOnFirstClick s).currentScreen = s.currentScreen := by
  unfold startTimerOnFirstClick startTimer clearTimer
  dsimp only
  repeat' split
  all_goals rfl

@[simp]
theorem startTimerOnFirstClick_score (s : GameState) : (startTimerOnFirstClick s).score = s.score := by
  unfold startTimerOnFirstClick startTimer clearTimer
  dsimp only
  repeat' split
  all_goals rfl

@[simp]
theorem startTimerOnFirstClick_errors (s : GameState) : (startTimerOnFirstClick s).errors = s.errors := by
  unfold startTimerOnFirstClick startTimer clearTimer
  dsimp only
  repeat' split
  all_goals rfl

@[simp]
theorem startTimerOnFirstClick_targetNote (s : GameState) : (startTimerOnFirstClick s).targetNote = s.targetNote := by
  unfold startTimerOnFirstClick startTimer clearTimer
  dsimp only
  repeat' split
  all_goals rfl

@[simp]
theorem startTimerOnFirstClick_allPositions (s : GameState) : (startTimerOnFirstClick s).allPositions = s.allPositions := by
  unfold startTimerOnFirstClick startTimer clearTimer
  dsimp only
  repeat' split
  all_goals rfl

@[simp]
theorem startTimerOnFirstClick_foundPositions (s : GameState) : (startTimerOnFirstClick s).foundPositions = s.foundPositions := by
  unfold startTimerOnFirstClick startTimer clearTimer
  dsimp only
  repeat' split
  all_goals rfl

@[simp]
theorem startTimerOnFirstClick_targetTriad (s : GameState) : (startTimerOnFirstClick s).targetTriad = s.targetTriad := by
  unfold startTimerOnFirstClick startTimer clearTimer
  dsimp only
  repeat' split
  all_goals rfl

@[simp]
theorem startTimerOnFirstClick_clickedTriadNotes (s : GameState) : (startTimerOnFirstClick s).clickedTriadNotes = s.clickedTriadNotes := by
  unfold startTimerOnFirstClick startTimer clearTimer
  dsimp only
  repeat' split
  all_goals rfl

@[simp]
theorem startTimerOnFirstClick_clickedTriadPositions (s : GameState) : (startTimerOnFirstClick s).clickedTriadPositions = s.clickedTriadPositions := by
  unfold startTimerOnFirstClick startTimer clearTimer
  dsimp only
  repeat' split
  all_goals rfl

@[simp]
theorem startTimerOnFirstClick_triadRootNotePosition (s : GameState) : (startTimerOnFirstClick s).triadRootNotePosition = s.triadRootNotePosition := by
  unfold startTimerOnFirstClick startTimer clearTimer
  dsimp only
  repeat' split
  all_goals rfl

@[simp]
theorem startTimerOnFirstClick_showTriadRootNote (s : GameState) : (startTimerOnFirstClick s).showTriadRootNote = s.showTriadRootNote := by
  unfold startTimerOnFirstClick startTimer clearTimer
  dsimp only
  repeat' split
  all_goals rfl

@[simp]
theorem startTimerOnFirstClick_disabledFrets (s : GameState) : (startTimerOnFirstClick s).disabledFrets = s.disabledFrets := by
  unfold startTimerOnFirstClick startTimer clearTimer
  dsimp only
  repeat' split
  all_goals rfl

@[simp]
theorem startTimerOnFirstClick_enableTimeLimit (s : GameState) : (startTimerOnFirstClick s).enableTimeLimit = s.enableTimeLimit := by
  unfold startTimerOnFirstClick startTimer clearTimer
  dsimp only
  repeat' split
  all_goals rfl

@[simp]
theorem startTimerOnFirstClick_timeLimit (s : GameState) : (startTimerOnFirstClick s).timeLimit = s.timeLimit := by
  unfold startTimerOnFirstClick startTimer clearTimer
  dsimp only
  repeat' split
  all_goals rfl

@[simp]
theorem startTimerOnFirstClick_isFirstQuestion (s : GameState) : (startTimerOnFirstClick s).isFirstQuestion = s.isFirstQuestion := by
  unfold startTimerOnFirstClick startTimer clearTimer
  dsimp only
  repeat' split
  all_goals rfl

/-- Membership characterization of `getAllPositions`: exactly the
positions on strings `0..5`, frets `1..22`, with an enabled fret and
the requested note. -/
theorem mem_getAllPositions {disabled : List Nat} {note : String} {p : Position} :
    p ∈ getAllPositions disabled note ↔
      p.string < 6 ∧ 1 ≤ p.fret ∧ p.fret < 23 ∧
        isFretDisabled disabled p.fret = false ∧ getNoteAt p.string p.fret = note := by
  obtain ⟨ps, pf⟩ := p
  simp only [getAllPositions, List.mem_flatMap, List.mem_map, List.mem_filter,
    List.mem_range, List.mem_range'_1, Bool.and_eq_true, Bool.not_eq_true',
    beq_iff_eq]
  constructor
  · rintro ⟨si, hsi, fi, ⟨⟨h1, h2⟩, hd, hn⟩, heq⟩
    cases heq
    exact ⟨hsi, h1, h2, hd, hn⟩
  · rintro ⟨hsi, h1, h2, hd, hn⟩
    exact ⟨ps, hsi, pf, ⟨⟨h1, h2⟩, hd, hn⟩, rfl⟩

/-- `getAllPositions` lists its positions in string-major, fret-minor
ascending order. -/
theorem getAllPositions_pairwise (disabled : List Nat) (note : String) :
    (getAllPositions disabled note).Pairwise posLt := by
  unfold getAllPositions
  have hinner : ∀ si : Nat,
      (((List.range' 1 (NUM_FRETS - 1)).filter fun fretIndex =>
          !isFretDisabled disabled fretIndex && getNoteAt si fretIndex == note).map
        fun fretIndex => Position.mk si fretIndex).Pairwise posLt := by
    intro si
    rw [List.pairwise_map]
    have h0 : (List.range' 1 (NUM_FRETS - 1)).Pairwise (· < ·) := by
      rw [List.range'_eq_map_range, List.pairwise_map]
      exact (List.pairwise_lt_range _).imp (by omega)
    exact (h0.filter _).imp fun h => Or.inr ⟨rfl, h⟩
  have hstr : ∀ si : Nat, ∀ p ∈
      (((List.range' 1 (NUM_FRETS - 1)).filter fun fretIndex =>
          !isFretDisabled disabled fretIndex && getNoteAt si fretIndex == note).map
        fun fretIndex => Position.mk si fretIndex), p.string = si := by
    intro si p hp
    simp only [List.mem_map] at hp
    obtain ⟨fi, _, rfl⟩ := hp
    rfl
  have hrange : (List.range STRING_TUNING.length).Pairwise (· < ·) :=
    List.pairwise_lt_range _
  revert hrange
  generalize List.range STRING_TUNING.length = ss
  intro hrange
  induction ss with
  | nil => simp
  | cons s ss ih =>
    rw [List.flatMap_cons, List.pairwise_append]
    rw [List.pairwise_cons] at hrange
    refine ⟨hinner s, ih hrange.2, ?_⟩
    intro a ha b hb
    rw [List.mem_flatMap] at hb
    obtain ⟨s', hs', hb⟩ := hb
    exact Or.inl (by rw [hstr s a ha, hstr s' b hb]; exact hrange.1 s' hs')

/-- `getAllPositions` never lists a position twice. -/
theorem getAllPositions_nodup (disabled : List Nat) (note : String) :
    (getAllPositions disabled note).Nodup := by
  refine (getAllPositions_pairwise disabled note).imp ?_
  rintro a b (h | ⟨-, h⟩) rfl <;> omega

theorem one_lt_fretRatio : 1 < fretRatio := by
  unfold fretRatio
  rw [Real.one_lt_rpow_iff_of_pos (by norm_num)]
  norm_num

theorem fretRatio_pos : 0 < fretRatio := lt_trans one_pos one_lt_fretRatio

theorem fretPosition_zero : fretPosition 0 = 0 := by simp [fretPosition]

theorem fretPosition_pos {n : Nat} (hn : n ≠ 0) : 0 < fretPosition n := by
  unfold fretPosition
  have h1 : 1 < fretRatio ^ n := one_lt_pow₀ one_lt_fretRatio hn
  have h2 : (fretRatio ^ n)⁻¹ < 1 := inv_lt_one_of_one_lt₀ h1
  linarith

/-- Closed form of the width of fret space `n`. -/
theorem fretWidth_eq (n : Nat) :
    fretPosition (n + 1) - fretPosition n = (fretRatio ^ n)⁻¹ * (1 - fretRatio⁻¹) := by
  unfold fretPosition
  rw [pow_succ, mul_inv]
  ring

theorem fretWidth_pos (n : Nat) : 0 < fretPosition (n + 1) - fretPosition n := by
  rw [fretWidth_eq]
  have h1 : (fretRatio ^ n)⁻¹ > 0 := inv_pos.mpr (pow_pos fretRatio_pos n)
  have h2 : fretRatio⁻¹ < 1 := inv_lt_one_of_one_lt₀ one_lt_fretRatio
  exact mul_pos h1 (by linarith)

/-- Fret-space widths strictly shrink toward the bridge. -/
theorem fretWidth_anti {i j : Nat} (h : i < j) :
    fretPosition (j + 1) - fretPosition j < fretPosition (i + 1) - fretPosition i := by
  rw [fretWidth_eq, fretWidth_eq]
  have hc : 0 < 1 - fretRatio⁻¹ := by
    have := inv_lt_one_of_one_lt₀ one_lt_fretRatio
    linarith
  have hpow : fretRatio ^ i < fretRatio ^ j := pow_lt_pow_right₀ one_lt_fretRatio h
  have hinv : (fretRatio ^ j)⁻¹ < (fretRatio ^ i)⁻¹ :=
    inv_strictAnti₀ (pow_pos fretRatio_pos i) hpow
  exact mul_lt_mul_of_pos_right hinv hc

/-- Telescoping: the first `m` fret-space widths sum to `fretPosition m`. -/
theorem sum_fretWidths (m : Nat) :
    ((List.range m).map fun i => fretPosition (i + 1) - fretPosition i).sum =
      fretPosition m := by
  induction m with
  | zero => simp [fretPosition_zero]
  | succ m ih =>
    rw [List.range_succ, List.map_append, List.sum_append, ih]
    simp

theorem getD_map_range (f : Nat → ℝ) {n m : Nat} (h : n < m) :
    (((List.range m).map f).getD n 0) = f n := by
  rw [List.getD_eq_getElem _ _ (by simpa using h)]
  simp

/-- C7: `getAllPositions(targetNote)` returns exactly the positions with
`stringIndex ∈ [0,6)` and `fret ∈ [1,23)` whose fret is enabled and
whose note per `getNoteAt` is the target, in string-major, fret-minor
ascending order. -/
theorem getAllPositions_spec (disabled : List Nat) (note : String) :
    (∀ p : Position, p ∈ getAllPositions disabled note ↔
      p.string < 6 ∧ 1 ≤ p.fret ∧ p.fret < 23 ∧
        isFretDisabled disabled p.fret = false ∧ getNoteAt p.string p.fret = note) ∧
    (getAllPositions disabled note).Pairwise posLt :=
  ⟨fun _ => mem_getAllPositions, getAllPositions_pairwise disabled note⟩

/-- C2: `calculateFretSpacingPercentages` has exactly 22 entries
(`NUM_FRETS - 1` fret spaces), sums to 100 (hence within the 1e-9
tolerance), is strictly decreasing, and each entry is proportional to
the equal-tempered space width `(1 - r^-(n+1)) - (1 - r^-n)` with
`r = 2^(1/12)`. -/
theorem calculateFretSpacingPercentages_spec :
    calculateFretSpacingPercentages.length = 22 ∧
    calculateFretSpacingPercentages.sum = 100 ∧
    |calculateFretSpacingPercentages.sum - 100| ≤ 1 / 10 ^ 9 ∧
    calculateFretSpacingPercentages.Pairwise (fun a b => b < a) ∧
    ∃ c : ℝ, 0 < c ∧ ∀ n : Fin 22,
      calculateFretSpacingPercentages.getD n 0 =
        c * ((1 - (fretRatio ^ ((n : Nat) + 1))⁻¹) - (1 - (fretRatio ^ (n : Nat))⁻¹)) := by
  have hT : ((List.range (NUM_FRETS - 1)).map fun i =>
      fretPosition (i + 1) - fretPosition i).sum = fretPosition 22 := by
    have : NUM_FRETS - 1 = 22 := rfl
    rw [this, sum_fretWidths]
  have hTpos : 0 < fretPosition 22 := fretPosition_pos (by norm_num)
  have hTne : fretPosition 22 ≠ 0 := ne_of_gt hTpos
  have hfun : ∀ p : ℝ, p / fretPosition 22 * 100 = p * (100 / fretPosition 22) := by
    intro p; ring
  have hlist : calculateFretSpacingPercentages =
      (List.range 22).map fun i =>
        (fretPosition (i + 1) - fretPosition i) * (100 / fretPosition 22) := by
    unfold calculateFretSpacingPercentages
    dsimp only
    rw [hT]
    have h22 : NUM_FRETS - 1 = 22 := rfl
    rw [h22, List.map_map]
    refine List.map_congr_left fun i _ => ?_
    simp only [Function.comp]
    exact hfun _
  have hsum : calculateFretSpacingPercentages.sum = 100 := by
    rw [hlist, List.sum_map_mul_right, sum_fretWidths]
    field_simp
  refine ⟨by rw [hlist]; simp, hsum, by rw [hsum]; norm_num, ?_, ?_⟩
  · rw [hlist]
    rw [List.pairwise_map]
    refine (List.pairwise_lt_range 22).imp fun {i j} hij => ?_
    have hk : 0 < 100 / fretPosition 22 := by positivity
    exact mul_lt_mul_of_pos_right (fretWidth_anti hij) hk
  · refine ⟨100 / fretPosition 22, by positivity, fun n => ?_⟩
    rw [hlist, getD_map_range _ n.isLt]
    have : (1 - (fretRatio ^ ((n : Nat) + 1))⁻¹) - (1 - (fretRatio ^ (n : Nat))⁻¹) =
        fretPosition ((n : Nat) + 1) - fretPosition (n : Nat) := rfl
    rw [this]
    ring

/-- C9: the two layout representations agree — for every `n < 22` the
normalized cumulative position of fret space `n` equals the sum of the
first `n` fret-space percentages (both normalized by the same total
span, in exact real arithmetic). -/
theorem fretLayout_representations_agree :
    ∀ n : Fin 22,
      calculateFretCumulativePositions.getD n 0 =
        (calculateFretSpacingPercentages.take (n : Nat)).sum := by
  intro n
  have hTpos : 0 < fretPosition 22 := fretPosition_pos (by norm_num)
  have hcum : calculateFretCumulativePositions =
      (List.range 22).map fun i => fretPosition i / fretPosition (NUM_FRETS - 1) * 100 := by
    unfold calculateFretCumulativePositions
    have h22 : NUM_FRETS - 1 = 22 := rfl
    rw [h22, if_pos hTpos, List.map_map]
    rfl
  have hT : ((List.range (NUM_FRETS - 1)).map fun i =>
      fretPosition (i + 1) - fretPosition i).sum = fretPosition 22 := by
    have : NUM_FRETS - 1 = 22 := rfl
    rw [this, sum_fretWidths]
  have hfun : ∀ p : ℝ, p / fretPosition 22 * 100 = p * (100 / fretPosition 22) := by
    intro p; ring
  have hlist : calculateFretSpacingPercentages =
      (List.range 22).map fun i =>
        (fretPosition (i + 1) - fretPosition i) * (100 / fretPosition 22) := by
    unfold calculateFretSpacingPercentages
    dsimp only
    rw [hT]
    have h22 : NUM_FRETS - 1 = 22 := rfl
    rw [h22, List.map_map]
    refine List.map_congr_left fun i _ => ?_
    simp only [Function.comp]
    exact hfun _
  rw [hcum, getD_map_range _ n.isLt, hlist, ← List.map_take, List.take_range,
    Nat.min_eq_left (le_of_lt n.isLt), List.sum_map_mul_right, sum_fretWidths]
  show fretPosition (n : Nat) / fretPosition 22 * 100 = _
  ring

/-- C1 counterexample: in the 2D view, a click on a disabled fret as
the session's first interaction DOES start the timer, because the DOM
handlers call `startTimerOnFirstClick()` before the disabled-fret
check.  Concretely: Find All, time limit 5s, fret 5 disabled, click on
string 0 / fret 5 — the click is rejected, yet `timerStarted` and
`timerRunning` flip to `true`. -/
theorem disabledFretClick_2d_starts_timer_cex :
    handleFindAllDOMClick
        { baseState with currentScreen := .findAll,
                         enableTimeLimit := true, timeLimit := 5, timeRemaining := 5,
                         disabledFrets := [5] } 0 5 =
      ({ baseState with currentScreen := .findAll, enableTimeLimit := true,
                        timeLimit := 5, timeRemaining := 5, disabledFrets := [5],
                        timerStarted := true, timerRunning := true }, .rejectedDisabled) := by
  rfl

/-- C1 amended: a click on a disabled fret is rejected with no effect on
score, errorCount or the found/clicked sets in either view; in the 3D
view (`onFretClick`) the state is completely unchanged — timer
included — for every game mode, while in the 2D view the DOM handlers
run `startTimerOnFirstClick` first, so such a click can still start the
timer as the session's first interaction. -/
theorem disabledFretClick_rejected_amended (s : GameState) (si fi : Nat)
    (hd : isFretDisabled s.disabledFrets fi = true) :
    onFretClick s si fi = (s, .rejectedDisabled) ∧
    handleSingleNoteDOMClick s si fi = (startTimerOnFirstClick s, .rejectedDisabled) ∧
    handleFindAllDOMClick s si fi = (startTimerOnFirstClick s, .rejectedDisabled) ∧
    handleTriadDOMClick s si fi = (startTimerOnFirstClick s, .rejectedDisabled) ∧
    (startTimerOnFirstClick s).score = s.score ∧
    (startTimerOnFirstClick s).errors = s.errors ∧
    (startTimerOnFirstClick s).foundPositions = s.foundPositions ∧
    (startTimerOnFirstClick s).clickedTriadNotes = s.clickedTriadNotes ∧
    (startTimerOnFirstClick s).clickedTriadPositions = s.clickedTriadPositions := by
  refine ⟨?g3d, ?gsn, ?gfa, ?gtd, startTimerOnFirstClick_score s, startTimerOnFirstClick_errors s,
    startTimerOnFirstClick_foundPositions s, startTimerOnFirstClick_clickedTriadNotes s,
    startTimerOnFirstClick_clickedTriadPositions s⟩
  case g3d =>
    unfold onFretClick
    rw [if_pos hd]
  case gsn => simp [handleSingleNoteDOMClick, hd]
  case gfa => simp [handleFindAllDOMClick, hd]
  case gtd => simp [handleTriadDOMClick, hd]

/-- C1 witness: instantiation of the amended disabled-click theorem at
a concrete Single Note state with fret 3 disabled. -/
theorem disabledFretClick_rejected_amended_witness :
    isFretDisabled ({ baseState with currentScreen := .singleNote,
                                     disabledFrets := [3] } : GameState).disabledFrets 3 = true ∧
    onFretClick { baseState with currentScreen := .singleNote,
                                 disabledFrets := [3] } 2 3 =
      ({ baseState with currentScreen := .singleNote, disabledFrets := [3] },
        .rejectedDisabled) :=
  ⟨by decide,
    (disabledFretClick_rejected_amended
      { baseState with currentScreen := .singleNote, disabledFrets := [3] } 2 3
      (by decide)).1⟩

/-- C4: the code contradicts the claim in the 2D view.  With target
triad C major and no note clicked yet, clicking string 0 / fret 8 (a C)
makes `handleTriadDOMClick` append the position to
`clickedTriadPositions` twice (`script.js` pushes at line 4110 and
again in both branches of the `length === 3` check), while the 3D
handler `handleTriadClick` appends it exactly once as the claim
states. -/
theorem triadDOMClick_double_push :
    (handleTriadDOMClick { baseState with currentScreen := .triads } 0 8).1.clickedTriadPositions =
      [Position.mk 0 8, Position.mk 0 8] ∧
    (handleTriadDOMClick { baseState with currentScreen := .triads } 0 8).1.clickedTriadNotes =
      ["C"] ∧
    (handleTriadClick { baseState with currentScreen := .triads } 0 8).1.clickedTriadPositions =
      [Position.mk 0 8] ∧
    (handleTriadClick { baseState with currentScreen := .triads } 0 8).1.clickedTriadNotes =
      ["C"] :=
  ⟨rfl, rfl, rfl, rfl⟩

/-- C5 counterexample: with the root-note hint enabled but every fret
1..22 disabled (both range sliders span the whole neck), the new
triad's root has no enabled position, `selectRandomRootNotePosition`
returns `null`, and the session starts with BOTH clicked sets empty —
`clickedTriadNotes` does not contain the root. -/
theorem triadRootHint_all_frets_disabled_cex :
    (startTriadsGameFromSettings
        { baseState with showTriadRootNote := true,
                         disabledFrets := List.range' 1 22 } cMajorTriad 0).clickedTriadNotes = [] ∧
    (startTriadsGameFromSettings
        { baseState with showTriadRootNote := true,
                         disabledFrets := List.range' 1 22 } cMajorTriad 0).clickedTriadPositions = [] ∧
    ({ baseState with showTriadRootNote := true,
                      disabledFrets := List.range' 1 22 } : GameState).showTriadRootNote = true := by
  refine ⟨by decide, by decide, rfl⟩

/-- C5 amended: with `showTriadRootNote` enabled AND at least one
enabled position carrying the new triad's root, immediately after
`startTriadsGameFromSettings` and before any click,
`clickedTriadNotes` is exactly the singleton root pitch class and
`clickedTriadPositions` is exactly one position whose note is that
root. -/
theorem triadRootHint_preseed (s : GameState) (newTriad : Triad) (rootPick : Nat)
    (hshow : s.showTriadRootNote = true)
    (hne : getAllPositions s.disabledFrets newTriad.root ≠ []) :
    (startTriadsGameFromSettings s newTriad rootPick).clickedTriadNotes =
      [newTriad.root] ∧
    ∃ p : Position,
      (startTriadsGameFromSettings s newTriad rootPick).clickedTriadPositions = [p] ∧
      getNoteAt p.string p.fret = newTriad.root := by
  have hlen : 0 < (getAllPositions s.disabledFrets newTriad.root).length :=
    List.length_pos.mpr hne
  have hsel : selectRandomRootNotePosition true s.disabledFrets
      (some newTriad.root) rootPick =
      some ((getAllPositions s.disabledFrets newTriad.root).getD
        (rootPick % (getAllPositions s.disabledFrets newTriad.root).length)
        (Position.mk 0 0)) := by
    unfold selectRandomRootNotePosition
    simp only [Bool.not_true, Bool.false_eq_true, if_false]
    rw [if_pos hlen]
  have hmemQ : (getAllPositions s.disabledFrets newTriad.root).getD
      (rootPick % (getAllPositions s.disabledFrets newTriad.root).length)
      (Position.mk 0 0) ∈ getAllPositions s.disabledFrets newTriad.root := by
    rw [List.getD_eq_getElem _ _ (Nat.mod_lt _ hlen)]
    exact List.getElem_mem _
  unfold startTriadsGameFromSettings
  dsimp only
  rw [hshow, hsel]
  simp only [Option.isSome_some, Bool.and_self, if_true, List.nil_append,
    Option.getD_some]
  exact ⟨trivial, _, rfl, (mem_getAllPositions.mp hmemQ).2.2.2.2⟩

/-- C5 witness: no disabled frets, C major triad — the session starts
with the hint pre-seeded. -/
theorem triadRootHint_preseed_witness :
    ({ baseState with showTriadRootNote := true } : GameState).showTriadRootNote = true ∧
    getAllPositions ({ baseState with showTriadRootNote := true } : GameState).disabledFrets
      cMajorTriad.root ≠ [] ∧
    ((startTriadsGameFromSettings { baseState with showTriadRootNote := true }
        cMajorTriad 0).clickedTriadNotes = [cMajorTriad.root] ∧
      ∃ p : Position,
        (startTriadsGameFromSettings { baseState with showTriadRootNote := true }
          cMajorTriad 0).clickedTriadPositions = [p] ∧
        getNoteAt p.string p.fret = cMajorTriad.root) :=
  ⟨rfl, by decide,
    triadRootHint_preseed { baseState with showTriadRootNote := true } cMajorTriad 0
      rfl (by decide)⟩

/-- C10: when the root-note hint is enabled but every position of the
new triad's root lies on a disabled fret, `selectRandomRootNotePosition`
returns `null` and the session starts with both clicked sets empty and
no stored hint position — the learner must find all three notes. -/
theorem triadRootHint_empty_no_preseed (s : GameState) (newTriad : Triad) (rootPick : Nat)
    (hshow : s.showTriadRootNote = true)
    (hempty : getAllPositions s.disabledFrets newTriad.root = []) :
    selectRandomRootNotePosition s.showTriadRootNote s.disabledFrets
      (some newTriad.root) rootPick = none ∧
    (startTriadsGameFromSettings s newTriad rootPick).clickedTriadNotes = [] ∧
    (startTriadsGameFromSettings s newTriad rootPick).clickedTriadPositions = [] ∧
    (startTriadsGameFromSettings s newTriad rootPick).triadRootNotePosition = none := by
  have hsel : selectRandomRootNotePosition true s.disabledFrets
      (some newTriad.root) rootPick = none := by
    unfold selectRandomRootNotePosition
    simp only [Bool.not_true, Bool.false_eq_true, if_false]
    rw [if_neg]
    rw [hempty]
    simp
  refine ⟨by rw [hshow]; exact hsel, ?ha, ?hb, ?hc⟩ <;>
    · unfold startTriadsGameFromSettings
      dsimp only
      rw [hshow, hsel]
      simp

/-- C10 witness: all frets 1..22 disabled, C major triad. -/
theorem triadRootHint_empty_no_preseed_witness :
    ({ baseState with showTriadRootNote := true,
                      disabledFrets := List.range' 1 22 } : GameState).showTriadRootNote = true ∧
    getAllPositions ({ baseState with showTriadRootNote := true,
                                      disabledFrets := List.range' 1 22 } : GameState).disabledFrets
      cMajorTriad.root = [] ∧
    selectRandomRootNotePosition
      ({ baseState with showTriadRootNote := true,
                        disabledFrets := List.range' 1 22 } : GameState).showTriadRootNote
      ({ baseState with showTriadRootNote := true,
                        disabledFrets := List.range' 1 22 } : GameState).disabledFrets
      (some cMajorTriad.root) 0 = none :=
  ⟨rfl, by decide,
    (triadRootHint_empty_no_preseed
      { baseState with showTriadRootNote := true, disabledFrets := List.range' 1 22 }
      cMajorTriad 0 rfl (by decide)).1⟩

/-- Under an active time limit, `clearTimer` stops the countdown and
resets `timeRemaining` to the configured limit. -/
theorem clearTimer_eq_active (s : GameState) (he : s.enableTimeLimit = true)
    (hl : s.timeLimit ≠ 0) :
    clearTimer s = { s with timerRunning := false, timeRemaining := s.timeLimit } := by
  unfold clearTimer
  dsimp only
  rw [if_pos (by simp [he, hl])]

/-- Under an active time limit, `startTimer` resets `timeRemaining`
and starts the countdown. -/
theorem startTimer_eq_active (s : GameState) (he : s.enableTimeLimit = true)
    (hl : s.timeLimit ≠ 0) :
    startTimer s = { s with timerRunning := true, timeRemaining := s.timeLimit } := by
  unfold startTimer
  dsimp only
  rw [clearTimer_eq_active s he hl, if_neg (by simp [he, hl])]

/-- C6: on timeout with an active time limit (the only situation in
which the countdown can reach zero), `errorCount` increases by exactly
one, the score is unchanged, a new prompt is generated for the active
mode, and the timer is restarted unconditionally — the first-prompt
grace period never applies afterwards because `isFirstQuestion` is set
to `false`. -/
theorem handleTimeOut_spec (s : GameState) (newNote : String) (newTriad : Triad)
    (rootPick : Nat)
    (henable : s.enableTimeLimit = true) (hlimit : s.timeLimit ≠ 0)
    (hscreen : s.currentScreen = .singleNote ∨ s.currentScreen = .findAll ∨
      s.currentScreen = .triads) :
    (handleTimeOut s newNote newTriad rootPick).errors = s.errors + 1 ∧
    (handleTimeOut s newNote newTriad rootPick).score = s.score ∧
    (handleTimeOut s newNote newTriad rootPick).isFirstQuestion = false ∧
    (handleTimeOut s newNote newTriad rootPick).timerRunning = true ∧
    (handleTimeOut s newNote newTriad rootPick).timeRemaining = s.timeLimit ∧
    (s.currentScreen = .singleNote →
      (handleTimeOut s newNote newTriad rootPick).targetNote = newNote) ∧
    (s.currentScreen = .findAll →
      (handleTimeOut s newNote newTriad rootPick).targetNote = newNote ∧
      (handleTimeOut s newNote newTriad rootPick).allPositions =
        getAllPositions s.disabledFrets newNote ∧
      (handleTimeOut s newNote newTriad rootPick).foundPositions = []) ∧
    (s.currentScreen = .triads →
      (handleTimeOut s newNote newTriad rootPick).targetTriad = newTriad) := by
  rcases hscreen with h | h | h
  · unfold handleTimeOut
    dsimp only
    rw [h]
    dsimp only
    rw [if_pos (by simp [henable, hlimit]),
      startTimer_eq_active _ (by simpa using henable) (by simpa using hlimit)]
    simp [h]
  · unfold handleTimeOut
    dsimp only
    rw [h]
    dsimp only
    rw [if_pos (by simp [henable, hlimit]),
      startTimer_eq_active _ (by simpa using henable) (by simpa using hlimit)]
    simp [h]
  · unfold handleTimeOut
    dsimp only
    rw [h]
    dsimp only
    split <;>
    · rw [if_pos (by simp [henable, hlimit]),
        startTimer_eq_active _ (by simpa using henable) (by simpa using hlimit)]
      simp [h]

/-- C6 witness: Find All session, 5-second limit. -/
theorem handleTimeOut_spec_witness :
    ({ baseState with currentScreen := .findAll, enableTimeLimit := true,
                      timeLimit := 5 } : GameState).enableTimeLimit = true ∧
    ({ baseState with currentScreen := .findAll, enableTimeLimit := true,
                      timeLimit := 5 } : GameState).timeLimit ≠ 0 ∧
    ((handleTimeOut { baseState with currentScreen := .findAll, enableTimeLimit := true,
                                     timeLimit := 5 } "D" cMajorTriad 0).errors =
      ({ baseState with currentScreen := .findAll, enableTimeLimit := true,
                        timeLimit := 5 } : GameState).errors + 1) :=
  ⟨rfl, by decide,
    (handleTimeOut_spec
      { baseState with currentScreen := .findAll, enableTimeLimit := true, timeLimit := 5 }
      "D" cMajorTriad 0 rfl (by decide) (Or.inr (Or.inl rfl))).1⟩

/-- The source's linear scan
`foundPositions.some(pos => pos.string === stringIndex && pos.fret === fretIndex)`
is exactly membership of the clicked position. -/
theorem any_match_eq_mem (l : List Position) (a b : Nat) :
    (l.any fun q => q.string == a && q.fret == b) = true ↔ Position.mk a b ∈ l := by
  rw [List.any_eq_true]
  constructor
  · rintro ⟨q, hq, hq2⟩
    simp only [Bool.and_eq_true, beq_iff_eq] at hq2
    obtain ⟨qs, qf⟩ := q
    obtain ⟨h1, h2⟩ := hq2
    dsimp at h1 h2
    subst h1
    subst h2
    exact hq
  · intro h
    exact ⟨_, h, by simp⟩

/-- A click on an already-found position leaves the core untouched. -/
theorem findAllClickCore_alreadyFound (s : GameState) (a b : Nat)
    (h : Position.mk a b ∈ s.foundPositions) :
    findAllClickCore s a b = (s, .alreadyFound) := by
  unfold findAllClickCore
  rw [if_pos ((any_match_eq_mem _ _ _).mpr h)]

/-- A click on a fresh position with the wrong note only counts an
error. -/
theorem findAllClickCore_wrong (s : GameState) (a b : Nat)
    (hnf : Position.mk a b ∉ s.foundPositions)
    (hn : getNoteAt a b ≠ s.targetNote) :
    findAllClickCore s a b = ({ s with errors := s.errors + 1 }, .wrong) := by
  unfold findAllClickCore
  rw [if_neg fun hc => hnf ((any_match_eq_mem _ _ _).mp hc)]
  dsimp only
  rw [if_neg (by simpa using hn)]

/-- A correct fresh click with positions still missing only appends to
`foundPositions`. -/
theorem findAllClickCore_correct_progress (s : GameState) (a b : Nat)
    (hnf : Position.mk a b ∉ s.foundPositions)
    (hn : getNoteAt a b = s.targetNote)
    (hlt : s.foundPositions.length + 1 < s.allPositions.length) :
    findAllClickCore s a b =
      ({ s with foundPositions := s.foundPositions ++ [Position.mk a b] },
        .correct false) := by
  unfold findAllClickCore
  rw [if_neg fun hc => hnf ((any_match_eq_mem _ _ _).mp hc)]
  rw [if_pos (by simpa using hn)]
  rw [if_pos (by simp only [List.length_append, List.length_cons, List.length_nil]; omega)]

/-- The completing correct click: `+10`, timer cleared, grace dropped. -/
theorem findAllClickCore_correct_complete (s : GameState) (a b : Nat)
    (hnf : Position.mk a b ∉ s.foundPositions)
    (hn : getNoteAt a b = s.targetNote)
    (hge : s.allPositions.length ≤ s.foundPositions.length + 1) :
    (findAllClickCore s a b).2 = .correct true ∧
    (findAllClickCore s a b).1.score = s.score + 10 ∧
    (findAllClickCore s a b).1.errors = s.errors ∧
    (findAllClickCore s a b).1.foundPositions = s.foundPositions ++ [Position.mk a b] ∧
    (findAllClickCore s a b).1.allPositions = s.allPositions ∧
    (findAllClickCore s a b).1.targetNote = s.targetNote ∧
    (findAllClickCore s a b).1.disabledFrets = s.disabledFrets := by
  unfold findAllClickCore
  rw [if_neg fun hc => hnf ((any_match_eq_mem _ _ _).mp hc)]
  rw [if_pos (by simpa using hn)]
  rw [if_neg (by simp only [List.length_append, List.length_cons, List.length_nil]; omega)]
  simp

/-- On an enabled fret the 2D Find All handler behaves exactly like the
3D one. -/
theorem findAllDOMClick_eq_click (s : GameState) (a b : Nat)
    (hd : isFretDisabled s.disabledFrets b = false) :
    handleFindAllDOMClick s a b = handleFindAllClick s a b := by
  unfold handleFindAllDOMClick handleFindAllClick
  dsimp only
  rw [if_neg (by simp [hd])]

/-- `FindAllInv` only mentions fields the timer routines preserve. -/
theorem FindAllInv_startTimerOnFirstClick (s : GameState) :
    FindAllInv (startTimerOnFirstClick s) ↔ FindAllInv s := by
  unfold FindAllInv
  simp

theorem FindAllInv_clearTimer (s : GameState) :
    FindAllInv (clearTimer s) ↔ FindAllInv s := by
  unfold FindAllInv
  simp

theorem FindAllInv_startTimer (s : GameState) :
    FindAllInv (startTimer s) ↔ FindAllInv s := by
  unfold FindAllInv
  simp

/-- The 3D Find All handler preserves the invariant on any zone click
(strings 0..5, frets 1..22) of an enabled fret. -/
theorem findAllClick_preserves_inv (s : GameState) (si fi : Nat)
    (hinv : FindAllInv s) (hsi : si < 6) (hfi1 : 1 ≤ fi) (hfi2 : fi < 23)
    (hd : isFretDisabled s.disabledFrets fi = false) :
    FindAllInv (handleFindAllClick s si fi).1 := by
  obtain ⟨hall, hsub⟩ := hinv
  have hclick : handleFindAllClick s si fi =
      findAllClickCore (startTimerOnFirstClick s) si fi := rfl
  have hmk : Position.mk si fi ∈ getAllPositions s.disabledFrets (getNoteAt si fi) :=
    mem_getAllPositions.mpr ⟨hsi, hfi1, hfi2, hd, rfl⟩
  rw [hclick]
  by_cases hmem : Position.mk si fi ∈ s.foundPositions
  · rw [findAllClickCore_alreadyFound _ si fi (by simpa using hmem)]
    exact (FindAllInv_startTimerOnFirstClick s).mpr ⟨hall, hsub⟩
  · by_cases hnote : getNoteAt si fi = s.targetNote
    · have hsub2 : ∀ q ∈ s.foundPositions ++ [Position.mk si fi], q ∈ s.allPositions := by
        intro q hq
        rcases List.mem_append.mp hq with hq | hq
        · exact hsub q hq
        · rw [List.mem_singleton.mp hq, hall]
          rw [hnote] at hmk
          exact hmk
      by_cases hlen : s.foundPositions.length + 1 < s.allPositions.length
      · rw [findAllClickCore_correct_progress _ si fi (by simpa using hmem)
          (by simpa using hnote) (by simpa using hlen)]
        exact ⟨by simpa using hall, by simpa using hsub2⟩
      · obtain ⟨-, -, -, hfnd, hap, htn, hdf⟩ :=
          findAllClickCore_correct_complete (startTimerOnFirstClick s) si fi
            (by simpa using hmem) (by simpa using hnote) (by simp; omega)
        refine ⟨?_, ?_⟩
        · rw [hap, hdf, htn]
          simpa using hall
        · intro q hq
          rw [hfnd] at hq
          rw [hap]
          simp only [startTimerOnFirstClick_foundPositions,
            startTimerOnFirstClick_allPositions] at hq ⊢
          exact hsub2 q hq
    · rw [findAllClickCore_wrong _ si fi (by simpa using hmem) (by simpa using hnote)]
      exact ⟨by simpa using hall, by simpa using hsub⟩

/-- C8: in Find All mode, `foundPositions ⊆ allPositions` holds after
every event: it is established by `startFindAllGame`, preserved by
every zone click in both views, and re-established (with
`foundPositions` reset to `[]`) whenever `allPositions` is recomputed
for a new target — by the post-completion advance and by timeout. -/
theorem findAll_foundPositions_subset :
    (∀ (s : GameState) (newNote : String), FindAllInv (startFindAllGame s newNote)) ∧
    (∀ (s : GameState) (si fi : Nat), FindAllInv s → s.currentScreen = .findAll →
      si < 6 → 1 ≤ fi → fi < 23 → FindAllInv (onFretClick s si fi).1) ∧
    (∀ (s : GameState) (si fi : Nat), FindAllInv s →
      si < 6 → 1 ≤ fi → fi < 23 → FindAllInv (handleFindAllDOMClick s si fi).1) ∧
    (∀ (s : GameState) (newNote : String),
      FindAllInv (findAllAdvance s newNote) ∧
      (findAllAdvance s newNote).foundPositions = []) ∧
    (∀ (s : GameState) (newNote : String) (newTriad : Triad) (rootPick : Nat),
      s.currentScreen = .findAll →
      FindAllInv (handleTimeOut s newNote newTriad rootPick) ∧
      (handleTimeOut s newNote newTriad rootPick).foundPositions = []) := by
  refine ⟨fun s newNote => ⟨rfl, by simp [startFindAllGame]⟩, ?h3d, ?hdom, ?hadv, ?hto⟩
  case h3d =>
    intro s si fi hinv hscreen hsi hfi1 hfi2
    unfold onFretClick
    by_cases hd : isFretDisabled s.disabledFrets fi = true
    · rw [if_pos hd]
      exact hinv
    · rw [if_neg hd, hscreen]
      exact findAllClick_preserves_inv s si fi hinv hsi hfi1 hfi2
        (by simpa using hd)
  case hdom =>
    intro s si fi hinv hsi hfi1 hfi2
    by_cases hd : isFretDisabled s.disabledFrets fi = true
    · unfold handleFindAllDOMClick
      dsimp only
      rw [if_pos (by simpa using hd)]
      exact (FindAllInv_startTimerOnFirstClick s).mpr hinv
    · rw [findAllDOMClick_eq_click s si fi (by simpa using hd)]
      exact findAllClick_preserves_inv s si fi hinv hsi hfi1 hfi2
        (by simpa using hd)
  case hadv =>
    intro s newNote
    unfold findAllAdvance
    dsimp only
    split
    · rw [FindAllInv_startTimer]
      exact ⟨⟨rfl, by simp⟩, by simp⟩
    · exact ⟨⟨rfl, by simp⟩, rfl⟩
  case hto =>
    intro s newNote newTriad rootPick hscreen
    unfold handleTimeOut
    dsimp only
    rw [hscreen]
    dsimp only
    split
    · rw [FindAllInv_startTimer]
      exact ⟨⟨rfl, by simp⟩, by simp⟩
    · exact ⟨⟨rfl, by simp⟩, rfl⟩

/-- C8 witness: a fresh Find All session with target C and no disabled
frets satisfies the invariant, and a click on string 0 / fret 8
preserves it. -/
theorem findAll_foundPositions_subset_witness :
    FindAllInv { baseState with currentScreen := .findAll, targetNote := "C",
                                allPositions := getAllPositions [] "C" } ∧
    ({ baseState with currentScreen := .findAll, targetNote := "C",
                      allPositions := getAllPositions [] "C" } : GameState).currentScreen =
      GameScreen.findAll ∧
    FindAllInv (onFretClick { baseState with currentScreen := .findAll, targetNote := "C",
                                             allPositions := getAllPositions [] "C" } 0 8).1 :=
  ⟨by decide, rfl,
    findAll_foundPositions_subset.2.1
      { baseState with currentScreen := .findAll, targetNote := "C",
                       allPositions := getAllPositions [] "C" } 0 8
      (by decide) rfl (by norm_num) (by norm_num) (by decide)⟩

/-- One unfolding step of the click trace. -/
theorem findAllClickTrace_cons (s : GameState) (p : Position) (ps : List Position) :
    findAllClickTrace s (p :: ps) =
      ((findAllClickTrace (handleFindAllClick s p.string p.fret).1 ps).1,
        (if (handleFindAllClick s p.string p.fret).2 = .correct true then 1 else 0) +
          (findAllClickTrace (handleFindAllClick s p.string p.fret).1 ps).2) := rfl

/-- Clicking the remaining unfound positions one each: the prompt
completes exactly on the last click, scoring +10 once, with no error
and no score change before the last click. -/
theorem findAllClickTrace_spec :
    ∀ (ps : List Position) (s : GameState),
      s.allPositions = getAllPositions s.disabledFrets s.targetNote →
      (s.foundPositions ++ ps).Perm s.allPositions →
      ps ≠ [] →
      (findAllClickTrace s ps).2 = 1 ∧
      (findAllClickTrace s ps).1.score = s.score + 10 ∧
      (findAllClickTrace s ps).1.errors = s.errors ∧
      ∀ k, k < ps.length → (findAllClickTrace s (ps.take k)).1.score = s.score := by
  intro ps
  induction ps with
  | nil => intro s _ _ hne; exact absurd rfl hne
  | cons p ps ih =>
    intro s hall hperm _
    have hndall : s.allPositions.Nodup := by
      rw [hall]; exact getAllPositions_nodup _ _
    have hnd : (s.foundPositions ++ p :: ps).Nodup := hperm.symm.nodup hndall
    have hpmem : p ∈ s.allPositions := hperm.subset (by simp)
    have hpnotf : p ∉ s.foundPositions := by
      intro hc
      rcases List.nodup_append.mp hnd with ⟨-, -, hdisj⟩
      exact hdisj hc (by simp)
    have hnote : getNoteAt p.string p.fret = s.targetNote :=
      (mem_getAllPositions.mp (hall ▸ hpmem)).2.2.2.2
    have hlen : s.foundPositions.length + (ps.length + 1) = s.allPositions.length := by
      have h := hperm.length_eq
      simp only [List.length_append, List.length_cons] at h
      omega
    have hclick : handleFindAllClick s p.string p.fret =
        findAllClickCore (startTimerOnFirstClick s) p.string p.fret := rfl
    have hpeta : Position.mk p.string p.fret = p := rfl
    cases ps with
    | nil =>
      obtain ⟨ho, hsc, herr, -, -, -, -⟩ :=
        findAllClickCore_correct_complete (startTimerOnFirstClick s) p.string p.fret
          (by rw [hpeta]; simpa using hpnotf) (by simpa using hnote)
          (by simp only [startTimerOnFirstClick_foundPositions,
                startTimerOnFirstClick_allPositions]
              simp only [List.length_nil] at hlen
              omega)
      rw [← hclick] at ho hsc herr
      refine ⟨?bcount, ?bscore, ?berr, ?btake⟩
      case bcount =>
        rw [findAllClickTrace_cons, ho]
        rfl
      case bscore =>
        rw [findAllClickTrace_cons]
        dsimp only
        show (handleFindAllClick s p.string p.fret).1.score = s.score + 10
        rw [hsc]
        simp
      case berr =>
        rw [findAllClickTrace_cons]
        dsimp only
        show (handleFindAllClick s p.string p.fret).1.errors = s.errors
        rw [herr]
        simp
      case btake =>
        intro k hk
        simp only [List.length_cons, List.length_nil] at hk
        interval_cases k
        rfl
    | cons q qs =>
      have hprog :=
        findAllClickCore_correct_progress (startTimerOnFirstClick s) p.string p.fret
          (by rw [hpeta]; simpa using hpnotf) (by simpa using hnote)
          (by simp only [startTimerOnFirstClick_foundPositions,
                startTimerOnFirstClick_allPositions, List.length_cons] at hlen ⊢
              omega)
      rw [← hclick] at hprog
      obtain ⟨cnt2, hsc2, herr2, htake2⟩ :=
        ih ({ startTimerOnFirstClick s with foundPositions :=
                (startTimerOnFirstClick s).foundPositions ++ [Position.mk p.string p.fret] })
          (by simpa using hall)
          (by simp only [startTimerOnFirstClick_foundPositions,
                startTimerOnFirstClick_allPositions]
              rw [hpeta, List.append_assoc]
              simpa using hperm)
          (by simp)
      refine ⟨?ccount, ?cscore, ?cerr, ?ctake⟩
      case ccount =>
        rw [findAllClickTrace_cons, hprog]
        dsimp only
        rw [if_neg (by simp), cnt2]
      case cscore =>
        rw [findAllClickTrace_cons, hprog]
        dsimp only
        rw [hsc2]
        simp
      case cerr =>
        rw [findAllClickTrace_cons, hprog]
        dsimp only
        rw [herr2]
        simp
      case ctake =>
        intro k hk
        cases k with
        | zero => rfl
        | succ k =>
          rw [List.take_succ_cons, findAllClickTrace_cons, hprog]
          dsimp only
          rw [htake2 k (by simp only [List.length_cons] at hk ⊢; omega)]
          simp

/-- C3: in Find All mode, clicking every position of `allPositions`
exactly once (in any order) completes the session exactly once — the
`+10` bonus is awarded exactly once, on the last click, with no points
for individual found positions before completion and no errors; a
redundant click on an already-found position changes neither score nor
errorCount nor foundPositions, so it can never produce a double bonus;
and on enabled frets the 2D handler coincides with the 3D one. -/
theorem findAll_complete_once (s : GameState) (ps : List Position)
    (hall : s.allPositions = getAllPositions s.disabledFrets s.targetNote)
    (hfound : s.foundPositions = [])
    (hperm : ps.Perm s.allPositions)
    (hne : ps ≠ []) :
    ((findAllClickTrace s ps).2 = 1 ∧
     (findAllClickTrace s ps).1.score = s.score + 10 ∧
     (findAllClickTrace s ps).1.errors = s.errors ∧
     (∀ k, k < ps.length → (findAllClickTrace s (ps.take k)).1.score = s.score)) ∧
    (∀ (t : GameState) (p : Position), p ∈ t.foundPositions →
      (handleFindAllClick t p.string p.fret).1.score = t.score ∧
      (handleFindAllClick t p.string p.fret).1.errors = t.errors ∧
      (handleFindAllClick t p.string p.fret).1.foundPositions = t.foundPositions ∧
      (handleFindAllClick t p.string p.fret).2 = .alreadyFound) ∧
    (∀ (t : GameState) (a b : Nat), isFretDisabled t.disabledFrets b = false →
      handleFindAllDOMClick t a b = handleFindAllClick t a b) := by
  refine ⟨?_, ?_, fun t a b hd => findAllDOMClick_eq_click t a b hd⟩
  · exact findAllClickTrace_spec ps s hall (by rw [hfound]; simpa using hperm) hne
  · intro t p hp
    have hclick : handleFindAllClick t p.string p.fret =
        findAllClickCore (startTimerOnFirstClick t) p.string p.fret := rfl
    have h := findAllClickCore_alreadyFound (startTimerOnFirstClick t) p.string p.fret
      (by rw [show Position.mk p.string p.fret = p from rfl]; simpa using hp)
    rw [hclick, h]
    exact ⟨by simp, by simp, by simp, rfl⟩

/-- C3 witness: a fresh Find All session targeting C with no disabled
frets; clicking the twelve C positions in enumeration order completes
exactly once. -/
theorem findAll_complete_once_witness :
    getAllPositions [] "C" ≠ [] ∧
    (findAllClickTrace
      { baseState with currentScreen := .findAll, targetNote := "C",
                       allPositions := getAllPositions [] "C" }
      (getAllPositions [] "C")).2 = 1 :=
  ⟨by decide,
    (findAll_complete_once
      { baseState with currentScreen := .findAll, targetNote := "C",
                       allPositions := getAllPositions [] "C" }
      (getAllPositions [] "C") rfl rfl (List.Perm.refl _) (by decide)).1.1⟩

end GuitarMemorizer
